import Mathlib

/-!
Verification of the frame-playback engine of `pixi-sprite-preview`.

The definitions below are a shallow embedding of the playback logic in
`src/components/AnimationViewer.tsx` (the interpolation-capable variant;
the second variant of the component found in the repository has an
identical `animate` advance body), of the frame sorting in
`AnimationViewer` (`sortedFiles`) and `spriteSheetParser.ts`
(`sortFramesByName`), and of the atlas-file resolution in
`LandingPage.tsx` (`processFiles`).

Numbers that are JS `number`s carrying timestamps, frame rates and
opacities are modelled as rationals (`ℚ`); frame indices and counts are
`Nat`. `String.prototype.localeCompare` is modelled as code-point
lexicographic comparison, which agrees with the default-locale collation
on the ASCII lower-case names (letters, digits, dots) at issue here.
-/

/-- The React state of `AnimationViewer` relevant to playback, together
with the mutable refs that drive the clock: `currentFrame`, `isPlaying`,
`loop`, `fps`, `interpolate` are `useState` values; `lastTime` is
`lastTimeRef.current`; `totalFrames` is `sortedFiles.length`, constant
for a loaded sequence. -/
structure ViewerState where
  currentFrame : Nat
  isPlaying : Bool
  loop : Bool
  fps : ℚ
  interpolate : Bool
  lastTime : ℚ
  totalFrames : Nat
  deriving DecidableEq, Repr

/-- `frameDuration = 1000 / fps` (AnimationViewer.tsx line 208). -/
def frameDuration (fps : ℚ) : ℚ := 1000 / fps

/-- The functional updater passed to `setCurrentFrame` inside `animate`
(AnimationViewer.tsx lines 245-256), together with its `setIsPlaying(false)`
side effect: `next = prev + 1`; if `next >= totalFrames` then wrap to `0`
when `loop`, else stop playing and keep `prev`. -/
def onAdvance (s : ViewerState) : ViewerState :=
  let next := s.currentFrame + 1
  if next ≥ s.totalFrames then
    if s.loop then { s with currentFrame := 0 }
    else { s with isPlaying := false }
  else { s with currentFrame := next }

/-- One call of `animate(currentTime)` restricted to the clock/advance
logic (AnimationViewer.tsx lines 210-215 and 244-259).  The guard
`isPlaying = false → no change` renders the effect on lines 200-206:
the animation loop is cancelled (no tick runs) while not playing.
When `lastTimeRef.current` is falsy (0) it is first established as the
current timestamp; an advance fires when `elapsed ≥ frameDuration` and
then resets `lastTimeRef.current` to the tick's timestamp (discarding
any surplus beyond one frame duration). -/
def tick (s : ViewerState) (currentTime : ℚ) : ViewerState :=
  if s.isPlaying = false then s
  else
    let lastTime := if s.lastTime = 0 then currentTime else s.lastTime
    let elapsed := currentTime - lastTime
    if elapsed ≥ frameDuration s.fps then
      { onAdvance s with lastTime := currentTime }
    else
      { s with lastTime := lastTime }

/-- `handleFrameChange` (AnimationViewer.tsx lines 318-321): sets
`currentFrame` to the given value unconditionally and resets
`lastTimeRef.current` to 0. This is the seek operation (slider). -/
def handleFrameChange (s : ViewerState) (frame : Nat) : ViewerState :=
  { s with currentFrame := frame, lastTime := 0 }

/-- `onFpsChange` as wired in AnimationViewer.tsx line 331: the prop is
`setFps` itself, so the handler stores the given value and touches
nothing else (in particular it does not reset `lastTimeRef`). The
`Controls` number input (min/max form attributes only) forwards
`Number(e.target.value)` without validation. -/
def onFpsChange (s : ViewerState) (newFps : ℚ) : ViewerState :=
  { s with fps := newFps }

/-- Space key / play button: `setIsPlaying` toggle target
(AnimationViewer.tsx lines 300-301 and 327). Neither play nor pause
touches `lastTimeRef`. -/
def setPlaying (s : ViewerState) (b : Bool) : ViewerState :=
  { s with isPlaying := b }

/-- ArrowRight handler (AnimationViewer.tsx line 307):
`prev < totalFrames - 1 ? prev + 1 : 0`. -/
def handleArrowRight (s : ViewerState) : ViewerState :=
  { s with currentFrame :=
      if s.currentFrame < s.totalFrames - 1 then s.currentFrame + 1 else 0 }

/-- ArrowLeft handler (AnimationViewer.tsx line 304):
`prev > 0 ? prev - 1 : totalFrames - 1`. -/
def handleArrowLeft (s : ViewerState) : ViewerState :=
  { s with currentFrame :=
      if s.currentFrame > 0 then s.currentFrame - 1 else s.totalFrames - 1 }

/-- `k` successive advance events. -/
def advanceIter : Nat → ViewerState → ViewerState
  | 0, s => s
  | k + 1, s => advanceIter k (onAdvance s)

section AdvanceLemmas

theorem onAdvance_loop_fields (s : ViewerState) :
    (onAdvance s).loop = s.loop ∧ (onAdvance s).totalFrames = s.totalFrames ∧
      (onAdvance s).fps = s.fps := by
  unfold onAdvance
  dsimp only
  split
  · split <;> simp
  · simp

theorem onAdvance_loop_true (s : ViewerState) (hl : s.loop = true)
    (hi : s.currentFrame < s.totalFrames) :
    (onAdvance s).currentFrame = (s.currentFrame + 1) % s.totalFrames ∧
      (onAdvance s).isPlaying = s.isPlaying := by
  unfold onAdvance
  dsimp only
  by_cases h : s.currentFrame + 1 ≥ s.totalFrames
  · have heq : s.currentFrame + 1 = s.totalFrames := le_antisymm hi h
    simp [h, hl, heq]
  · push_neg at h
    simp [if_neg (not_le.mpr h), Nat.mod_eq_of_lt h]

theorem advanceIter_loop_true (s : ViewerState) (hl : s.loop = true)
    (hi : s.currentFrame < s.totalFrames) (k : Nat) :
    (advanceIter k s).currentFrame = (s.currentFrame + k) % s.totalFrames := by
  induction k generalizing s with
  | zero => simpa [advanceIter] using (Nat.mod_eq_of_lt hi).symm
  | succ k ih =>
    have h0 : 0 < s.totalFrames := Nat.pos_of_ne_zero (by omega)
    obtain ⟨hfix1, hfix2, _⟩ := onAdvance_loop_fields s
    have hstep := (onAdvance_loop_true s hl hi).1
    have hi' : (onAdvance s).currentFrame < (onAdvance s).totalFrames := by
      rw [hstep, hfix2]; exact Nat.mod_lt _ h0
    have hl' : (onAdvance s).loop = true := hfix1.trans hl
    have := ih (onAdvance s) hl' hi'
    rw [advanceIter, this, hstep, hfix2, Nat.mod_add_mod]
    ring_nf

end AdvanceLemmas

/-- C1: with `loop = true` an advance sets the index to
`(i + 1) mod N` (leaving `isPlaying` alone) and `k` repeated advances
reach `(i + k) mod N`, cycling `0, …, N-1` forever; with `loop = false`
at index `N - 1` a single advance transitions to not-playing, leaves the
index at `N - 1`, and every later tick is a no-op (so the transition
happens exactly once and the index stays put). -/
theorem C1_advance_semantics (s : ViewerState)
    (h0 : 0 < s.totalFrames) (hi : s.currentFrame < s.totalFrames) :
    (s.loop = true →
      (onAdvance s).currentFrame = (s.currentFrame + 1) % s.totalFrames ∧
      (onAdvance s).isPlaying = s.isPlaying ∧
      ∀ k, (advanceIter k s).currentFrame = (s.currentFrame + k) % s.totalFrames) ∧
    (s.loop = false → s.currentFrame = s.totalFrames - 1 →
      (onAdvance s).isPlaying = false ∧
      (onAdvance s).currentFrame = s.totalFrames - 1 ∧
      ∀ t, tick (onAdvance s) t = onAdvance s) := by
  constructor
  · intro hl
    refine ⟨(onAdvance_loop_true s hl hi).1, (onAdvance_loop_true s hl hi).2,
      fun k => advanceIter_loop_true s hl hi k⟩
  · intro hl hlast
    have hge : s.currentFrame + 1 ≥ s.totalFrames := by omega
    have h1 : onAdvance s = { s with isPlaying := false } := by
      unfold onAdvance; simp [hge, hl]
    refine ⟨by rw [h1], by rw [h1]; exact hlast, fun t => ?_⟩
    rw [h1]; unfold tick; simp

/-- Witness for C1 at a concrete state (N = 3, i = 2). -/
theorem C1_advance_semantics_witness :
    (0 < (3 : Nat)) ∧ ((2 : Nat) < 3) ∧
    ((⟨2, true, true, 24, false, 0, 3⟩ : ViewerState).loop = true →
      (onAdvance ⟨2, true, true, 24, false, 0, 3⟩).currentFrame = (2 + 1) % 3 ∧
      (onAdvance ⟨2, true, true, 24, false, 0, 3⟩).isPlaying =
        (⟨2, true, true, 24, false, 0, 3⟩ : ViewerState).isPlaying ∧
      ∀ k, (advanceIter k ⟨2, true, true, 24, false, 0, 3⟩).currentFrame = (2 + k) % 3) := by
  exact ⟨by decide, by decide,
    (C1_advance_semantics ⟨2, true, true, 24, false, 0, 3⟩ (by decide) (by decide)).1⟩

theorem onAdvance_at_most_one (s : ViewerState) (hi : s.currentFrame < s.totalFrames) :
    (onAdvance s).currentFrame = s.currentFrame ∨
      (onAdvance s).currentFrame = (s.currentFrame + 1) % s.totalFrames := by
  unfold onAdvance
  dsimp only
  by_cases h : s.currentFrame + 1 ≥ s.totalFrames
  · have heq : s.currentFrame + 1 = s.totalFrames := le_antisymm hi h
    cases hl : s.loop
    · left; simp [h, hl]
    · right; simp [h, hl, heq]
  · right
    push_neg at h
    simp [if_neg (not_le.mpr h), Nat.mod_eq_of_lt h]

/-- C8: manual stepping wraps in both directions: ArrowRight goes from
`i` to `i + 1` when `i < N - 1` and to `0` at `i = N - 1`; ArrowLeft
goes to `i - 1` when `i > 0` and to `N - 1` at `i = 0`; neither handler
reads `loop`, so the result is the same for either loop setting. -/
theorem C8_step_wraparound (s : ViewerState)
    (h0 : 0 < s.totalFrames) (hi : s.currentFrame < s.totalFrames) :
    ((s.currentFrame < s.totalFrames - 1 →
        (handleArrowRight s).currentFrame = s.currentFrame + 1) ∧
     (s.currentFrame = s.totalFrames - 1 →
        (handleArrowRight s).currentFrame = 0)) ∧
    ((0 < s.currentFrame →
        (handleArrowLeft s).currentFrame = s.currentFrame - 1) ∧
     (s.currentFrame = 0 →
        (handleArrowLeft s).currentFrame = s.totalFrames - 1)) ∧
    (∀ b : Bool,
      (handleArrowRight { s with loop := b }).currentFrame =
        (handleArrowRight s).currentFrame ∧
      (handleArrowLeft { s with loop := b }).currentFrame =
        (handleArrowLeft s).currentFrame) := by
  refine ⟨⟨fun h => ?_, fun h => ?_⟩, ⟨fun h => ?_, fun h => ?_⟩, fun b => ⟨rfl, rfl⟩⟩
  · simp [handleArrowRight, h]
  · have hn : ¬ (s.currentFrame < s.totalFrames - 1) := by omega
    simp [handleArrowRight, hn]
  · simp [handleArrowLeft, h]
  · simp [handleArrowLeft, h]

/-- Witness for C8 at N = 4, i = 3 (wrap forward) with loop = false. -/
theorem C8_step_wraparound_witness :
    (0 < (4 : Nat)) ∧ ((3 : Nat) < 4) ∧
    ((handleArrowRight ⟨3, false, false, 24, false, 0, 4⟩).currentFrame = 0 ∧
     (handleArrowLeft ⟨3, false, false, 24, false, 0, 4⟩).currentFrame = 2) :=
  ⟨by decide, by decide,
    ⟨(C8_step_wraparound ⟨3, false, false, 24, false, 0, 4⟩ (by decide)
        (by decide)).1.2 (by decide),
     (C8_step_wraparound ⟨3, false, false, 24, false, 0, 4⟩ (by decide)
        (by decide)).2.1.1 (by decide)⟩⟩

/-- C3 counterexample: with 2 frames, seeking to frame 5 (outside
`[0, 1]`) is neither rejected nor clamped: the state mutates and
`currentFrame` becomes 5, leaving the claimed invariant
`currentFrame < totalFrames` violated. -/
theorem C3_counterexample :
    (handleFrameChange ⟨0, false, true, 24, false, 0, 2⟩ 5).currentFrame = 5 ∧
    ¬ ((handleFrameChange ⟨0, false, true, 24, false, 0, 2⟩ 5).currentFrame < 2) ∧
    handleFrameChange ⟨0, false, true, 24, false, 0, 2⟩ 5 ≠
      ⟨0, false, true, 24, false, 0, 2⟩ := by
  decide

/-- C3 amended: `handleFrameChange` performs no range validation at
all — it sets `currentFrame` to the given value unconditionally (out of
range included), resets the clock accumulator, and leaves every other
field unchanged; in-range behaviour is as the spec describes only
because the slider UI supplies in-range values. -/
theorem C3_amended_seek_unchecked (s : ViewerState) (frame : Nat) :
    (handleFrameChange s frame).currentFrame = frame ∧
    (handleFrameChange s frame).lastTime = 0 ∧
    (handleFrameChange s frame).isPlaying = s.isPlaying ∧
    (handleFrameChange s frame).loop = s.loop ∧
    (handleFrameChange s frame).fps = s.fps ∧
    (handleFrameChange s frame).totalFrames = s.totalFrames := by
  simp [handleFrameChange]

/-- C4 counterexample: `onFpsChange` accepts non-positive rates: with
stored fps 24, `onFpsChange (-5)` stores `-5` (the stored fps does not
stay 24), and `onFpsChange 0` stores `0`; no `InvalidFrameRate`
rejection exists in the code. -/
theorem C4_counterexample :
    (onFpsChange ⟨0, false, true, 24, false, 0, 2⟩ (-5)).fps = -5 ∧
    (onFpsChange ⟨0, false, true, 24, false, 0, 2⟩ (-5)).fps ≠ 24 ∧
    (onFpsChange ⟨0, false, true, 24, false, 0, 2⟩ 0).fps = 0 := by
  decide

/-- C4 amended: `onFpsChange` stores whatever fps it is given —
positive, zero or negative — and leaves all other fields unchanged;
the only range constraints (`min=1`, `max=120`) are form attributes on
the number input, not enforced by the handler. -/
theorem C4_amended_fps_unvalidated (s : ViewerState) (f : ℚ) :
    (onFpsChange s f).fps = f ∧
    (onFpsChange s f).currentFrame = s.currentFrame ∧
    (onFpsChange s f).isPlaying = s.isPlaying ∧
    (onFpsChange s f).loop = s.loop ∧
    (onFpsChange s f).lastTime = s.lastTime ∧
    (onFpsChange s f).totalFrames = s.totalFrames := by
  simp [onFpsChange]

/-- C5 counterexample: a frame-rate change does not reset the clock
accumulator: with `lastTimeRef.current = 500`, `onFpsChange 30` leaves
it at 500, not 0. -/
theorem C5_counterexample :
    (onFpsChange ⟨0, true, true, 24, false, 500, 3⟩ 30).lastTime = 500 ∧
    (onFpsChange ⟨0, true, true, 24, false, 500, 3⟩ 30).lastTime ≠ 0 := by
  decide

/-- C5 amended: a seek (`handleFrameChange`) resets the clock
accumulator to zero, but a frame-rate change (`onFpsChange`) leaves it
untouched, so only the next tick after a seek measures elapsed time
from that tick. -/
theorem C5_amended_reset_on_seek_only (s : ViewerState) (frame : Nat) (f : ℚ) :
    (handleFrameChange s frame).lastTime = 0 ∧
    (onFpsChange s f).lastTime = s.lastTime := by
  simp [handleFrameChange, onFpsChange]

/-- C7 counterexample: pausing does not reset `lastTimeRef`, so the
first tick after resuming can fire an advance from time accumulated
before the pause: playing at `lastTime = 100` with fps 10
(`frameDuration = 100`), pause, resume, first tick at `t = 500`
computes `elapsed = 400 ≥ 100` and advances 0 → 1 immediately. -/
theorem C7_counterexample :
    (tick (setPlaying (setPlaying ⟨0, true, true, 10, false, 100, 3⟩ false) true)
        500).currentFrame = 1 ∧
    (setPlaying (setPlaying ⟨0, true, true, 10, false, 100, 3⟩ false) true).currentFrame
      = 0 ∧
    (setPlaying (setPlaying ⟨0, true, true, 10, false, 100, 3⟩ false) true).lastTime
      = 100 := by
  norm_num [tick, setPlaying, onAdvance, frameDuration]

/-- C7 amended: the zero-elapsed first tick happens exactly when the
accumulator is zero — at the initial state or after a seek's reset: a
tick with `lastTime = 0` and `fps > 0` establishes `lastTime` as the
tick's timestamp, computes zero elapsed and never advances. Resuming
after a pause does not reset `lastTime`, so the first tick after a
resume is not covered (see the counterexample). -/
theorem C7_amended_first_tick (s : ViewerState) (t : ℚ)
    (hz : s.lastTime = 0) (hfps : 0 < s.fps) :
    (tick s t).currentFrame = s.currentFrame ∧
    (tick s t).isPlaying = s.isPlaying ∧
    (s.isPlaying = true → (tick s t).lastTime = t) := by
  have hfd : 0 < frameDuration s.fps := div_pos (by norm_num) hfps
  unfold tick
  cases hp : s.isPlaying with
  | false => simp [hp]
  | true =>
    have hne : ¬ frameDuration s.fps ≤ 0 := not_le.mpr hfd
    simp [hz, hne]

/-- Witness for C7 amended: fresh playing state, first tick at t = 777. -/
theorem C7_amended_first_tick_witness :
    ((⟨0, true, true, 10, false, 0, 3⟩ : ViewerState).lastTime = 0) ∧
    (0 < (⟨0, true, true, 10, false, 0, 3⟩ : ViewerState).fps) ∧
    ((tick ⟨0, true, true, 10, false, 0, 3⟩ 777).currentFrame =
        (⟨0, true, true, 10, false, 0, 3⟩ : ViewerState).currentFrame ∧
     (tick ⟨0, true, true, 10, false, 0, 3⟩ 777).isPlaying =
        (⟨0, true, true, 10, false, 0, 3⟩ : ViewerState).isPlaying ∧
     ((⟨0, true, true, 10, false, 0, 3⟩ : ViewerState).isPlaying = true →
        (tick ⟨0, true, true, 10, false, 0, 3⟩ 777).lastTime = 777)) :=
  ⟨by decide, by decide,
    C7_amended_first_tick ⟨0, true, true, 10, false, 0, 3⟩ 777 (by decide) (by decide)⟩

/-- C10: one tick moves the index by at most one position — the result
is either the old index or `(i + 1) mod N` — and when an advance fires
(however many frame durations have elapsed) the accumulator restarts at
the tick's own timestamp, discarding the surplus instead of converting
it into further advances. -/
theorem C10_at_most_one_advance (s : ViewerState) (t : ℚ)
    (h0 : 0 < s.totalFrames) (hi : s.currentFrame < s.totalFrames) :
    ((tick s t).currentFrame = s.currentFrame ∨
     (tick s t).currentFrame = (s.currentFrame + 1) % s.totalFrames) ∧
    (s.isPlaying = true → s.lastTime ≠ 0 →
      frameDuration s.fps ≤ t - s.lastTime →
      (tick s t).lastTime = t ∧
      ((tick s t).currentFrame = (onAdvance s).currentFrame)) := by
  have hcases : (tick s t).currentFrame = s.currentFrame ∨
      (tick s t).currentFrame = (onAdvance s).currentFrame := by
    unfold tick
    split
    · left; rfl
    · dsimp only
      split <;> split
      all_goals first | (right; rfl) | (left; rfl)
  constructor
  · rcases hcases with h | h
    · left; exact h
    · rw [h]; exact onAdvance_at_most_one s hi
  · intro hp hnz hge
    have hcond : t - (if s.lastTime = 0 then t else s.lastTime) ≥ frameDuration s.fps := by
      rw [if_neg hnz]; exact hge
    unfold tick
    rw [hp]
    rw [if_neg (by simp)]
    dsimp only
    rw [if_pos hcond]
    exact ⟨rfl, rfl⟩

/-- Witness for C10: fps 10 (duration 100), last tick at 100, next tick
at 350 — 2.5 frame durations elapsed — still advances exactly one step
and restarts the clock at 350. -/
theorem C10_at_most_one_advance_witness :
    (0 < (3 : Nat)) ∧ ((0 : Nat) < 3) ∧
    (((tick ⟨0, true, true, 10, false, 100, 3⟩ 350).currentFrame = 0 ∨
      (tick ⟨0, true, true, 10, false, 100, 3⟩ 350).currentFrame = (0 + 1) % 3) ∧
     ((⟨0, true, true, 10, false, 100, 3⟩ : ViewerState).isPlaying = true →
      (⟨0, true, true, 10, false, 100, 3⟩ : ViewerState).lastTime ≠ 0 →
      frameDuration (⟨0, true, true, 10, false, 100, 3⟩ : ViewerState).fps ≤
        350 - (⟨0, true, true, 10, false, 100, 3⟩ : ViewerState).lastTime →
      (tick ⟨0, true, true, 10, false, 100, 3⟩ 350).lastTime = 350 ∧
      (tick ⟨0, true, true, 10, false, 100, 3⟩ 350).currentFrame =
        (onAdvance ⟨0, true, true, 10, false, 100, 3⟩).currentFrame)) :=
  ⟨by decide, by decide,
    C10_at_most_one_advance ⟨0, true, true, 10, false, 100, 3⟩ 350 (by decide) (by decide)⟩

/-- The two-layer composite emitted for one paint: the base sprite
(`spriteRef`) and the interpolation overlay (`nextSpriteRef`), with the
overlay's source frame index (set in the frame-change effect,
AnimationViewer.tsx lines 280-287) and the alpha/visible flags set in
`animate` (lines 217-242). -/
structure Composite where
  baseAlpha : ℚ
  baseVisible : Bool
  overlayFrame : Option Nat
  overlayAlpha : ℚ
  overlayVisible : Bool
  deriving DecidableEq, Repr

/-- `nextFrameIndex = (currentFrame + 1) % totalFrames`
(AnimationViewer.tsx line 281). -/
def nextFrameIndex (currentFrame totalFrames : Nat) : Nat :=
  (currentFrame + 1) % totalFrames

/-- The composite directive of one tick: when
`interpolate && totalFrames > 1` (AnimationViewer.tsx line 218) the
base stays at alpha 1, `progress = Math.min(elapsed / frameDuration, 1)`
drives the overlay alpha, and the overlay is shown only when
`progress > 0.01` (lines 220-230); its texture is the frame at
`(currentFrame + 1) % totalFrames` (line 281). Otherwise the overlay is
cleared: alpha 0 and invisible (lines 236-241 and 283-287). -/
def compositeDirective (interpolate : Bool) (totalFrames currentFrame : Nat)
    (elapsed fd : ℚ) : Composite :=
  if interpolate = true ∧ totalFrames > 1 then
    let progress := min (elapsed / fd) 1
    { baseAlpha := 1, baseVisible := true,
      overlayFrame := some (nextFrameIndex currentFrame totalFrames),
      overlayAlpha := progress,
      overlayVisible := decide (progress > 1 / 100) }
  else
    { baseAlpha := 1, baseVisible := true, overlayFrame := none,
      overlayAlpha := 0, overlayVisible := false }

/-- C6: for every tick, the base layer is fully opaque and visible;
with interpolation off or a single frame the overlay is absent (no
frame, alpha 0, hidden); otherwise the overlay shows the frame at
`(i + 1) mod N`, its opacity equals `clamp(elapsed / frameDuration, 0, 1)`
(for non-negative elapsed and positive duration), and whenever that
opacity is at most 0.01 the overlay is not visible. -/
theorem C6_composite (interp : Bool) (N i : Nat) (elapsed fd : ℚ)
    (he : 0 ≤ elapsed) (hfd : 0 < fd) :
    (compositeDirective interp N i elapsed fd).baseAlpha = 1 ∧
    (compositeDirective interp N i elapsed fd).baseVisible = true ∧
    ((interp = false ∨ N ≤ 1) →
      (compositeDirective interp N i elapsed fd).overlayFrame = none ∧
      (compositeDirective interp N i elapsed fd).overlayAlpha = 0 ∧
      (compositeDirective interp N i elapsed fd).overlayVisible = false) ∧
    (interp = true → 1 < N →
      (compositeDirective interp N i elapsed fd).overlayFrame = some ((i + 1) % N) ∧
      (compositeDirective interp N i elapsed fd).overlayAlpha =
        max 0 (min (elapsed / fd) 1) ∧
      ((compositeDirective interp N i elapsed fd).overlayAlpha ≤ 1 / 100 →
        (compositeDirective interp N i elapsed fd).overlayVisible = false)) := by
  unfold compositeDirective nextFrameIndex
  by_cases hc : interp = true ∧ N > 1
  · rw [if_pos hc]
    dsimp only
    refine ⟨rfl, rfl, ?_, ?_⟩
    · rintro (h | h)
      · rw [hc.1] at h; cases h
      · exact absurd hc.2 (not_lt.mpr h)
    · intro _ _
      have hprog : 0 ≤ min (elapsed / fd) 1 :=
        le_min (div_nonneg he hfd.le) zero_le_one
      refine ⟨rfl, (max_eq_right hprog).symm, fun hle => ?_⟩
      exact decide_eq_false (not_lt.mpr hle)
  · rw [if_neg hc]
    dsimp only
    refine ⟨rfl, rfl, fun _ => ⟨rfl, rfl, rfl⟩, fun h1 h2 => absurd ⟨h1, h2⟩ hc⟩

/-- Witness for C6: interpolation on, 3 frames, halfway through a
100 ms frame interval with 50 ms elapsed. -/
theorem C6_composite_witness :
    (0 ≤ (50 : ℚ)) ∧ (0 < (100 : ℚ)) ∧
    ((compositeDirective true 3 1 50 100).baseAlpha = 1 ∧
     (compositeDirective true 3 1 50 100).baseVisible = true ∧
     ((true = false ∨ 3 ≤ 1) →
       (compositeDirective true 3 1 50 100).overlayFrame = none ∧
       (compositeDirective true 3 1 50 100).overlayAlpha = 0 ∧
       (compositeDirective true 3 1 50 100).overlayVisible = false) ∧
     (true = true → 1 < 3 →
       (compositeDirective true 3 1 50 100).overlayFrame = some ((1 + 1) % 3) ∧
       (compositeDirective true 3 1 50 100).overlayAlpha =
         max 0 (min ((50 : ℚ) / 100) 1) ∧
       ((compositeDirective true 3 1 50 100).overlayAlpha ≤ 1 / 100 →
         (compositeDirective true 3 1 50 100).overlayVisible = false))) :=
  ⟨by norm_num, by norm_num,
    C6_composite true 3 1 50 100 (by norm_num) (by norm_num)⟩

/-- Strict code-point lexicographic comparison of char lists: the model
of the ordering `String.prototype.localeCompare` induces on the ASCII
file names at issue (see the header note). -/
def lexLtB : List Char → List Char → Bool
  | [], [] => false
  | [], _ :: _ => true
  | _ :: _, [] => false
  | a :: as, b :: bs =>
    if a.toNat < b.toNat then true
    else if b.toNat < a.toNat then false
    else lexLtB as bs

/-- `a.localeCompare(b)`: negative when `a` sorts before `b`, positive
when after, zero on ties. -/
def localeCompareInt (a b : String) : Int :=
  if lexLtB a.data b.data then -1 else if lexLtB b.data a.data then 1 else 0

/-- `a` sorts no later than `b` under the `sortedFiles` comparator
`(a, b) => a.name.localeCompare(b.name)` (AnimationViewer.tsx line 34). -/
def localeLe (a b : String) : Prop := localeCompareInt a b ≤ 0

instance : DecidableRel localeLe :=
  fun a b => inferInstanceAs (Decidable (localeCompareInt a b ≤ 0))

/-- `sortedFiles` (AnimationViewer.tsx lines 33-35):
`[...files].sort((a, b) => a.name.localeCompare(b.name))`, i.e. a stable
ascending sort by the name comparator, modelled on the name lists. -/
def sortedFiles (names : List String) : List String :=
  names.insertionSort localeLe

/-- One manifest frame entry as parsed by `spriteSheetParser.ts`
(`SpriteFrame`, reduced to the fields `sortFramesByName` can see). -/
structure SpriteFrame where
  name : String
  x : ℚ
  y : ℚ
  width : ℚ
  height : ℚ
  deriving DecidableEq, Repr

/-- The regex match `name.match(/(\d+)/)` of `sortFramesByName`: the
first maximal run of decimal digits in the name, if any. -/
def firstDigitRun : List Char → Option (List Char)
  | [] => none
  | c :: cs =>
    if c.isDigit then some (c :: cs.takeWhile Char.isDigit)
    else firstDigitRun cs

/-- `parseInt` on a run of decimal digits. -/
def parseIntDigits (cs : List Char) : Nat :=
  cs.foldl (fun n c => 10 * n + (c.toNat - 48)) 0

/-- The comparator of `sortFramesByName` (spriteSheetParser.ts): when
both names contain a digit run and the parsed numbers differ, compare
numerically (`aNum - bNum`); otherwise fall back to `localeCompare`. -/
def frameCompare (a b : String) : Int :=
  match firstDigitRun a.data, firstDigitRun b.data with
  | some da, some db =>
    if parseIntDigits da ≠ parseIntDigits db then
      (parseIntDigits da : Int) - (parseIntDigits db : Int)
    else localeCompareInt a b
  | _, _ => localeCompareInt a b

/-- `sortFramesByName` (spriteSheetParser.ts lines 539-556): sorts atlas
manifest entries with `frameCompare` on their names. Used only on the
atlas path in `LandingPage.processFiles`, before frame extraction. -/
def sortFramesByName (frames : List SpriteFrame) : List SpriteFrame :=
  frames.insertionSort (fun a b => frameCompare a.name b.name ≤ 0)

theorem lexLtB_asymm : ∀ as bs : List Char,
    lexLtB as bs = true → lexLtB bs as = false := by
  intro as
  induction as with
  | nil =>
    intro bs h
    cases bs with
    | nil => simp [lexLtB] at h
    | cons b bs => simp [lexLtB]
  | cons a as ih =>
    intro bs h
    cases bs with
    | nil => simp [lexLtB] at h
    | cons b bs =>
      simp only [lexLtB] at h ⊢
      by_cases h1 : a.toNat < b.toNat
      · have h2 : ¬ b.toNat < a.toNat := by omega
        simp [h1, h2]
      · by_cases h2 : b.toNat < a.toNat
        · simp [h1, h2] at h
        · simp only [if_neg h1, if_neg h2] at h ⊢
          exact ih bs h

theorem lexLtB_false_trans : ∀ as bs cs : List Char,
    lexLtB as bs = false → lexLtB bs cs = false → lexLtB as cs = false := by
  intro as
  induction as with
  | nil =>
    intro bs cs h1 h2
    cases bs with
    | nil =>
      cases cs with
      | nil => simp [lexLtB]
      | cons c cs => simp [lexLtB] at h2
    | cons b bs => simp [lexLtB] at h1
  | cons a as ih =>
    intro bs cs h1 h2
    cases cs with
    | nil => simp [lexLtB]
    | cons c cs =>
      cases bs with
      | nil => simp [lexLtB] at h2
      | cons b bs =>
        simp only [lexLtB] at h1 h2 ⊢
        by_cases hab : a.toNat < b.toNat
        · simp [hab] at h1
        · by_cases hbc : b.toNat < c.toNat
          · simp [hbc] at h2
          · have hac : ¬ a.toNat < c.toNat := by omega
            by_cases hca : c.toNat < a.toNat
            · simp [hac, hca]
            · have hba : ¬ b.toNat < a.toNat := by omega
              have hcb : ¬ c.toNat < b.toNat := by omega
              have h1' : lexLtB as bs = false := by
                simpa [hab, hba] using h1
              have h2' : lexLtB bs cs = false := by
                simpa [hbc, hcb] using h2
              simp only [if_neg hac, if_neg hca]
              exact ih bs cs h1' h2'

theorem localeLe_iff (a b : String) :
    localeLe a b ↔ lexLtB b.data a.data = false := by
  unfold localeLe localeCompareInt
  by_cases h1 : lexLtB a.data b.data = true
  · have h2 := lexLtB_asymm _ _ h1
    simp [h1, h2]
  · have h1' : lexLtB a.data b.data = false := by simpa using h1
    by_cases h2 : lexLtB b.data a.data = true
    · simp [h1', h2]
    · have h2' : lexLtB b.data a.data = false := by simpa using h2
      simp [h1', h2']

instance : IsTotal String localeLe :=
  ⟨fun a b => by
    rw [localeLe_iff, localeLe_iff]
    by_cases h : lexLtB a.data b.data = true
    · left; exact lexLtB_asymm _ _ h
    · right; simpa using h⟩

instance : IsTrans String localeLe :=
  ⟨fun a b c hab hbc => by
    rw [localeLe_iff] at hab hbc ⊢
    exact lexLtB_false_trans _ _ _ hbc hab⟩

/-- C2 counterexample: the viewer's indexing comparator is plain
`localeCompare`, not numeric-aware: sorting the two files `frame2.png`
and `frame10.png` yields `[frame10.png, frame2.png]` — `frame2.png`
sorts after `frame10.png`, contradicting the claimed order. -/
theorem C2_counterexample_numeric_sort :
    sortedFiles ["frame2.png", "frame10.png"] = ["frame10.png", "frame2.png"] ∧
    sortedFiles ["frame2.png", "frame10.png"] ≠ ["frame2.png", "frame10.png"] := by
  decide

/-- C2 amended: frames are indexed by the plain lexicographic
(`localeCompare`) order of their names — `sortedFiles` always produces
a list sorted under `localeLe` and a permutation of its input. Loading
only `frame1.png` and `frame10.png` still yields
`[frame1.png, frame10.png]` (the dot sorts before the digit `0`), but
`frame2.png` sorts after `frame10.png`. Only the atlas pipeline's
`sortFramesByName` is numeric-aware, comparing the first embedded digit
runs as integers (so it puts `frame2` before `frame10`). -/
theorem C2_amended_lexicographic_sort (names : List String) :
    (sortedFiles names).Sorted localeLe ∧
    (sortedFiles names).Perm names ∧
    sortedFiles ["frame1.png", "frame10.png"] = ["frame1.png", "frame10.png"] ∧
    sortedFiles ["frame2.png", "frame10.png"] = ["frame10.png", "frame2.png"] ∧
    sortFramesByName [⟨"frame2", 0, 0, 1, 1⟩, ⟨"frame10", 0, 0, 1, 1⟩] =
      [⟨"frame2", 0, 0, 1, 1⟩, ⟨"frame10", 0, 0, 1, 1⟩] :=
  ⟨List.sorted_insertionSort localeLe names,
   List.perm_insertionSort localeLe names,
   by decide, by decide, by decide⟩

/-- `toLowerCase`, restricted to the ASCII range the atlas names use. -/
def toLowerStr (s : String) : String := ⟨s.data.map Char.toLower⟩

def strEndsWith (s suffix : String) : Bool := suffix.data.isSuffixOf s.data

def dropRightStr (s : String) (n : Nat) : String :=
  ⟨s.data.take (s.data.length - n)⟩

/-- `name.replace(/\.(png|webp|ktx2|jpg|jpeg)$/, '')` from
`LandingPage.processFiles`: strips one trailing supported image
extension, if present (input is already lower-cased there). -/
def stripImageExt (s : String) : String :=
  if strEndsWith s ".png" then dropRightStr s 4
  else if strEndsWith s ".webp" then dropRightStr s 5
  else if strEndsWith s ".ktx2" then dropRightStr s 5
  else if strEndsWith s ".jpg" then dropRightStr s 4
  else if strEndsWith s ".jpeg" then dropRightStr s 5
  else s

/-- The atlas-file predicate from `LandingPage.processFiles` (lines
582-594 of the concatenated source): a supplied file matches when its
lower-cased name equals the lower-cased `meta.image`, or when the two
lower-cased base names (extension stripped) are equal. -/
def matchesAtlas (atlasImage fileName : String) : Bool :=
  let atlasFileName := toLowerStr atlasImage
  let atlasBaseName := stripImageExt atlasFileName
  let fileNameLower := toLowerStr fileName
  fileNameLower == atlasFileName || stripImageExt fileNameLower == atlasBaseName

/-- `files.find(...)` over the supplied files with `matchesAtlas`. -/
def findAtlasFile (atlasImage : String) (files : List String) : Option String :=
  files.find? (fun f => matchesAtlas atlasImage f)

/-- C9: atlas resolution succeeds exactly when the lower-cased supplied
file name equals the lower-cased manifest image name, or their base
names with a supported image extension stripped are equal; in
particular a manifest naming `sheet.PNG` resolves against a supplied
`sheet.png` (also through the file search). -/
theorem C9_atlas_resolution (atlasImage fileName : String) :
    (matchesAtlas atlasImage fileName = true ↔
      (toLowerStr fileName = toLowerStr atlasImage ∨
        stripImageExt (toLowerStr fileName) = stripImageExt (toLowerStr atlasImage))) ∧
    matchesAtlas "sheet.PNG" "sheet.png" = true ∧
    findAtlasFile "sheet.PNG" ["frames.json", "sheet.png"] = some "sheet.png" := by
  refine ⟨?_, by decide, by decide⟩
  unfold matchesAtlas
  simp [Bool.or_eq_true, beq_iff_eq]
